import Mathlib

/-!
Shallow embedding of the DataVisualizer backend parsing pipeline:
`src/backend/app/services/pdf_parser.py` (row parsing, unit extraction,
header detection, table assembly, date resolution) and
`src/backend/app/services/database.py` (range query with degrade-to-empty).

Modelling conventions:
* Python `str` is Lean `String`; a possibly-`None` cell is `Option String`.
* Python `float` values produced by `float()` on the regex match
  `^(\d+\.?\d*)` are modelled exactly as rationals (`ℚ`): such a numeral is a
  finite decimal, and the sign / zero-ness facts the claims need are
  preserved by the float rounding of any numeral of realistic length.
* `\d`, `\w`, `.upper()`, `.isdigit()` are modelled on their ASCII parts,
  which is what every string the repository matches against contains.
* A Python function that can raise returns `Option`/`Except`; `none` or
  `.error` models the exception.
-/

namespace DataVisualizer

/-- Whitespace stripped by Python `str.strip()` (ASCII part). -/
def isPySpace (c : Char) : Bool :=
  c = ' ' || c = '\t' || c = '\n' || c = '\x0b' || c = '\x0c' || c = '\r'

/-- Python `s.strip()`: remove leading and trailing whitespace. -/
def pyStrip (s : String) : String :=
  String.mk (((s.toList.dropWhile isPySpace).reverse.dropWhile isPySpace).reverse)

/-- Python `s.isdigit()` (ASCII part): nonempty and all characters digits. -/
def pyIsDigit (s : String) : Bool :=
  !s.toList.isEmpty && s.toList.all Char.isDigit

/-- Python `needle in hay` substring containment, on character lists. -/
def listContainsSub (hay needle : List Char) : Bool :=
  hay.tails.any (fun t => needle.isPrefixOf t)

/-- Python `needle in hay` on strings. -/
def strContainsSub (hay needle : String) : Bool :=
  listContainsSub hay.toList needle.toList

/-- Python `s.upper()` (ASCII part). -/
def pyUpper (s : String) : String :=
  String.mk (s.toList.map Char.toUpper)

/-- Python `s.split(sep)` for a one-character separator, by structural
recursion on the character list (`cur` accumulates the current piece in
reverse). -/
def splitOnCharAux (c0 : Char) : List Char → List Char → List (List Char)
  | [], cur => [cur.reverse]
  | c :: cs, cur =>
    if c = c0 then cur.reverse :: splitOnCharAux c0 cs []
    else splitOnCharAux c0 cs (c :: cur)

/-- Python `s.split(sep)` for a one-character separator, on strings. -/
def pySplitChar (c0 : Char) (s : String) : List String :=
  (splitOnCharAux c0 s.toList []).map String.mk

/-- Value of a list of ASCII digit characters read in base 10. -/
def digitsToNat (ds : List Char) : Nat :=
  ds.foldl (fun a c => 10 * a + (c.toNat - 48)) 0

/-- Regex `^(\d+\.?\d*)` applied to a token (`re.match` at line 157):
`some (numeral, rest)` when the token starts with a digit, splitting the
token into the greedy match and everything after it. -/
def matchNumeral (s : String) : Option (String × String) :=
  let cs := s.toList
  let ds := cs.takeWhile Char.isDigit
  if ds.isEmpty then none
  else
    match cs.drop ds.length with
    | '.' :: r2 =>
        let fs := r2.takeWhile Char.isDigit
        some (String.mk (ds ++ '.' :: fs), String.mk (r2.drop fs.length))
    | r1 => some (String.mk ds, String.mk r1)

/-- Python `float()` on a numeral matched by `^(\d+\.?\d*)`, as an exact
rational: the digits before the dot are the integer part and the digits
after it the decimal fraction. -/
def parseNumeral (s : String) : ℚ :=
  match splitOnCharAux '.' s.toList [] with
  | [i] => mkRat (digitsToNat i) 1
  | [i, f] => mkRat (digitsToNat i * 10 ^ f.length + digitsToNat f) (10 ^ f.length)
  | _ => 0

/-- Truthiness of the mutable `value` variable in the scan loop: Python
`not value` is true while `value` is still `None` or equal to `0.0`. -/
def valueFalsy (v : Option ℚ) : Bool :=
  match v with
  | none => true
  | some q => q == 0

/-- Data class `BloodworkResult` (bloodwork_metadata.py). -/
structure BloodworkResult where
  test_name : String
  value : ℚ
  unit : String
  reference_range : String
  test_date : String
deriving Repr, DecidableEq

/-- Data class `BloodworkRecord` (bloodwork_metadata.py). -/
structure BloodworkRecord where
  patient_name : String
  test_date : String
  results : List BloodworkResult
deriving Repr, DecidableEq

/-- Fixed unit catalogue of `extract_unit_from_range` (line 207), in order. -/
def unitsCatalogue : List String :=
  ["%", "mg/dL", "mg/dl", "U/L", "g/dL", "g/dl", "mmol/L", "μg/dL", "ng/mL", "mL/min"]

/-- Character class `[a-zA-Z/μ]` of the fallback regex (line 214). -/
def isUnitChar (c : Char) : Bool :=
  c.isAlpha || c = '/' || c = 'μ'

/-- Leftmost maximal run of characters satisfying `p`: the `re.search` of a
single character-class-plus pattern. -/
def firstRun (p : Char → Bool) : List Char → Option (List Char)
  | [] => none
  | c :: cs => if p c then some (c :: cs.takeWhile p) else firstRun p cs

/-- Embedding of `extract_unit_from_range` (pdf_parser.py lines 201-218). -/
def extract_unit_from_range (reference_range : String) : String :=
  if reference_range = "" then ""
  else
    match unitsCatalogue.find? (fun u => strContainsSub reference_range u) with
    | some u => u
    | none =>
        match firstRun isUnitChar reference_range.toList with
        | some run => String.mk run
        | none => ""

/-- Cell cleaning `cell.strip() if cell else ""` (line 111): a `None` cell
and an empty cell both clean to `""`. -/
def cleanCell (c : Option String) : String :=
  match c with
  | none => ""
  | some s => if s = "" then "" else pyStrip s

/-- Flattening (lines 121-129): each non-empty cell is split on embedded
line breaks, fragments are stripped, empty fragments dropped, and the rest
concatenated across cells in order. -/
def flattenParts (cells : List String) : List String :=
  cells.foldr
    (fun cell acc =>
      if cell = "" then acc
      else ((pySplitChar '\n' cell).map pyStrip).filter (fun p => p ≠ "") ++ acc)
    []

/-- Digit filter (lines 131-138): drop tokens that are purely digits.  The
re-strip and non-emptiness test of the source are no-ops here because
`flattenParts` already emits stripped non-empty tokens. -/
def filterDigitTokens (parts : List String) : List String :=
  parts.filter (fun p => !pyIsDigit p)

/-- Asterisk removal of line 148: `test_name.replace` deleting every
asterisk character. -/
def removeStars (s : String) : String :=
  String.mk (s.toList.filter (fun c => c ≠ '*'))

/-- Value / reference-range scan over the tokens after the test name: the
for-loop of `parse_test_row` (lines 152-175).  While `value` is falsy a
numeric-leading token (re)sets it, its stripped remainder replacing
`reference_range` when non-empty; while `value` is truthy every token is
appended to `reference_range`, space-joined. -/
def scanParts : List String → Option ℚ → String → Option ℚ × String
  | [], v, r => (v, r)
  | p :: ps, v, r =>
    if valueFalsy v then
      match matchNumeral p with
      | some (numStr, rest) =>
          let rem := pyStrip rest
          scanParts ps (some (parseNumeral numStr)) (if rem ≠ "" then rem else r)
      | none => scanParts ps v r
    else
      scanParts ps v (if r = "" then p else r ++ " " ++ p)

/-- Embedding of `parse_test_row` (pdf_parser.py lines 107-198).  Every
modelled step is total, mirroring the outer try/except of the source that
converts any exception into a `None` return. -/
def parse_test_row (row : List (Option String)) (date : String) : Option BloodworkResult :=
  if (row.map cleanCell).length < 2 || (row.map cleanCell).all (fun c => c = "") then none
  else if ((row.map cleanCell).filter (fun c => pyStrip c ≠ "")).length ≤ 1 then none
  else if (filterDigitTokens (flattenParts (row.map cleanCell))).length < 2 then none
  else
    match filterDigitTokens (flattenParts (row.map cleanCell)) with
    | [] => none
    | first :: restParts =>
        match scanParts restParts none "" with
        | (none, _) => none
        | (some v, reference_range) =>
            some { test_name := pyStrip (removeStars first)
                   value := v
                   unit := extract_unit_from_range reference_range
                   reference_range := reference_range
                   test_date := date }

/-- Python `' '.join(cell or '' for cell in row)` (line 101). -/
def joinRow (row : List (Option String)) : String :=
  String.intercalate " " (row.map (fun c => c.getD ""))

/-- Indexed scan of `find_header_row` (lines 98-103). -/
def findHeaderAux : List (List (Option String)) → Nat → Option Nat
  | [], _ => none
  | row :: rest, i =>
    if 2 ≤ row.length &&
        (strContainsSub (pyUpper (joinRow row)) "REZULTATI" ||
         strContainsSub (pyUpper (joinRow row)) "VLERAT REFERUESE") then some i
    else findHeaderAux rest (i + 1)

/-- Embedding of `find_header_row` (pdf_parser.py lines 96-104). -/
def find_header_row (table : List (List (Option String))) : Option Nat :=
  findHeaderAux table 0

/-- Data-row loop of `parse_blood_work_table` (lines 84-91): rows with
fewer than 2 cells are skipped, the rest parsed and accepted results kept. -/
def processRows (rows : List (List (Option String))) (date : String) : List BloodworkResult :=
  (rows.filter (fun r => 2 ≤ r.length)).filterMap (fun r => parse_test_row r date)

/-- Per-table processing of `parse_blood_work_table` (lines 69-91): find the
header (defaulting to index 0 when absent) and process the rows after it. -/
def processTable (t : List (List (Option String))) (date : String) : List BloodworkResult :=
  processRows (t.drop ((find_header_row t).getD 0 + 1)) date

/-- Embedding of `parse_blood_work_table` (pdf_parser.py lines 60-93). -/
def parse_blood_work_table (tables : List (List (List (Option String))))
    (date name : String) : BloodworkRecord :=
  { patient_name := name
    test_date := date
    results := (tables.map (fun t => processTable t date)).flatten }

/-- Word character of the regex `\b` boundary (ASCII part of `\w`). -/
def isWordChar (c : Char) : Bool :=
  c.isAlphanum || c = '_'

/-- Match of the pattern `\b(\d{2}/\d{2}/\d{4})\b` at the head of the list
(the leading boundary is checked by the caller): `some` the ten matched
characters when the head is a `DD/MM/YYYY` shape followed by a non-word
character or the end of input. -/
def dateShape : List Char → Option (List Char)
  | d1 :: d2 :: '/' :: m1 :: m2 :: '/' :: y1 :: y2 :: y3 :: y4 :: rest =>
    if (d1.isDigit && d2.isDigit && m1.isDigit && m2.isDigit &&
        y1.isDigit && y2.isDigit && y3.isDigit && y4.isDigit) &&
        (rest.isEmpty || !isWordChar (rest.headD ' ')) then
      some [d1, d2, '/', m1, m2, '/', y1, y2, y3, y4]
    else none
  | _ => none

/-- Left-to-right non-overlapping scan of `re.findall` for the date pattern
(line 225-226); `prevW` records whether the previous character was a word
character (so that the leading `\b` holds exactly when it is false).  After
a ten-character match the scan resumes right after it, with `prevW` true
because the match ends in a digit.  The `fuel` argument only makes the
recursion structural; each step consumes at least one character, so any
fuel at least the list length gives the untruncated scan. -/
def findDatesAux : Nat → Bool → List Char → List String
  | 0, _, _ => []
  | _, _, [] => []
  | fuel + 1, prevW, c :: cs =>
    match (if !prevW then dateShape (c :: cs) else none) with
    | some d => String.mk d :: findDatesAux fuel true (cs.drop 9)
    | none => findDatesAux fuel (isWordChar c) cs

/-- Python `re.findall` of `\b(\d{2}/\d{2}/\d{4})\b` over the text. -/
def findall_dates (text : String) : List String :=
  findDatesAux text.toList.length false text.toList

/-- Leap-year rule of the Gregorian calendar, as `datetime` validates it. -/
def isLeapYear (y : Nat) : Bool :=
  (y % 4 = 0 && y % 100 ≠ 0) || y % 400 = 0

/-- Number of days in the given month of the given year. -/
def daysInMonth (m y : Nat) : Nat :=
  if m = 2 then (if isLeapYear y then 29 else 28)
  else if m = 4 || m = 6 || m = 9 || m = 11 then 30
  else 31

/-- Python `datetime.strptime(s, DD slash MM slash YYYY)` restricted to the
ten-character shapes the date regex can produce; `none` models the
`ValueError` raised on a shape- or calendar-invalid string.  The result is
`(day, month, year)`. -/
def strptimeDDMMYYYY (s : String) : Option (Nat × Nat × Nat) :=
  match s.toList with
  | [d1, d2, '/', m1, m2, '/', y1, y2, y3, y4] =>
    if [d1, d2, m1, m2, y1, y2, y3, y4].all Char.isDigit then
      let d := digitsToNat [d1, d2]
      let m := digitsToNat [m1, m2]
      let y := digitsToNat [y1, y2, y3, y4]
      if 1 ≤ y && 1 ≤ m && m ≤ 12 && 1 ≤ d && d ≤ daysInMonth m y then
        some (d, m, y)
      else none
    else none
  | _ => none

/-- Decimal digit character for `n % 10`. -/
def digitChar10 (n : Nat) : Char :=
  Char.ofNat (48 + n % 10)

/-- Python `strftime` of a `%Y-%m-%d` date, zero padded, for the year range
`1..9999` that `datetime` admits. -/
def formatISO (d m y : Nat) : String :=
  String.mk [digitChar10 (y / 1000), digitChar10 (y / 100), digitChar10 (y / 10),
             digitChar10 y, '-', digitChar10 (m / 10), digitChar10 m, '-',
             digitChar10 (d / 10), digitChar10 d]

/-- Reformatting step applied to the selected match (lines 236-241):
`strptime` then `strftime`, `none` modelling the possible `ValueError`. -/
def formatSelected (d : String) : Option String :=
  match strptimeDDMMYYYY d with
  | none => none
  | some (dd, mm, yy) => some (formatISO dd mm yy)

/-- Embedding of `extract_test_date` (pdf_parser.py lines 221-241).  The
current time is passed in as `now_ddmmyyyy`, already rendered by
`datetime.now().strftime` in `DD/MM/YYYY` form exactly as the source
renders it at line 234; a `none` result models the uncaught `ValueError`
that `strptime` raises on a shape-valid but calendar-invalid match. -/
def extract_test_date (text user_bday now_ddmmyyyy : String) : Option String :=
  match (findall_dates text).foldl (fun acc d => if d ≠ user_bday then some d else acc) none with
  | none => some now_ddmmyyyy
  | some d => formatSelected d

/-- Format predicate used to state claims about date strings: ten
characters `YYYY-MM-DD` with digits in the date positions. -/
def isYYYYMMDD (s : String) : Bool :=
  match s.toList with
  | [a, b, c, d, '-', e, f, '-', g, h] => [a, b, c, d, e, f, g, h].all Char.isDigit
  | _ => false

/-- Tabular query result (a pandas DataFrame) abstracted as rows of cells;
`pd.DataFrame()` with no arguments is the empty table. -/
def emptyTable : List (List String) := []

/-- SQL text built by `get_patient_tests` (database.py lines 97-108), with
the start and end dates already rendered as date strings. -/
def buildQuery (start_date end_date : String) (test_names : Option (List String)) : String :=
  let query :=
    "\n                SELECT *\n                FROM \"bloodwork\"\n                WHERE time >= '"
      ++ start_date ++ "'\n                AND time <= '" ++ end_date ++ "'\n            "
  let query :=
    match test_names with
    | some names =>
        if names ≠ [] then
          query ++ " AND test_name IN ('" ++ String.intercalate "', '" names ++ "')"
        else query
    | none => query
  query ++ " ORDER BY time DESC"

/-- Embedding of `InfluxDBService.get_patient_tests` (database.py lines
81-115).  The InfluxDB client is a parameter mapping the query text to
either a table or an error; `.error` models any exception raised during
query construction or execution, which the source catches and converts to
an empty DataFrame. -/
def get_patient_tests (client : String → Except String (List (List String)))
    (start_date end_date : String) (test_names : Option (List String)) :
    List (List String) :=
  match client (buildQuery start_date end_date test_names) with
  | .ok t => t
  | .error _ => emptyTable

/-! Helper lemmas shared by several claims. -/

/-- Characters produced by a leftmost maximal run all satisfy the class. -/
theorem firstRun_all (p : Char → Bool) :
    ∀ cs run, firstRun p cs = some run → run.all p = true := by
  intro cs
  induction cs with
  | nil => intro run h; simp [firstRun] at h
  | cons c cs ih =>
    intro run h
    by_cases hc : p c
    · simp only [firstRun, hc, if_true, Option.some.injEq] at h
      subst h
      simp only [List.all_cons, hc, Bool.true_and, List.all_eq_true]
      intro x hx
      exact List.mem_takeWhile_imp hx
    · simp only [firstRun, hc, if_false, Bool.false_eq_true] at h
      exact ih run h

/-- Decimal digit characters really are digits. -/
theorem digitChar10_isDigit (n : Nat) : (digitChar10 n).isDigit = true := by
  unfold digitChar10
  generalize hg : n % 10 = r
  have h : r < 10 := by omega
  interval_cases r <;> decide

/-- Strings rendered by the ISO formatter satisfy the format predicate. -/
theorem isYYYYMMDD_formatISO (d m y : Nat) : isYYYYMMDD (formatISO d m y) = true := by
  unfold formatISO isYYYYMMDD
  simp [digitChar10_isDigit]

/-- Appending to the head commutes with the last-element query. -/
theorem getLast?_cons_orElse (a : String) (l : List String) :
    (a :: l).getLast? = (l.getLast? <|> some a) := by
  induction l generalizing a with
  | nil => rfl
  | cons x xs ih =>
    rw [List.getLast?_cons_cons, ih x]
    cases xs.getLast? <;> simp

/-- Overwriting fold of extract_test_date computes the last kept element:
folding `if d differs from the birthday then some d else acc` picks the
last element of the filtered list, defaulting to the accumulator. -/
theorem foldl_pick_last (b : String) (ds : List String) (acc : Option String) :
    ds.foldl (fun a d => if d ≠ b then some d else a) acc =
      ((ds.filter (fun d => d ≠ b)).getLast? <|> acc) := by
  induction ds generalizing acc with
  | nil => simp
  | cons d ds ih =>
    rw [List.foldl_cons, List.filter_cons]
    by_cases h : d = b
    · rw [if_neg (by simp [h]), if_neg (by simp [h])]
      exact ih acc
    · rw [if_pos (by simp [h]), if_pos (by simp [h]), ih (some d), getLast?_cons_orElse]
      cases (ds.filter (fun d => d ≠ b)).getLast? <;> rfl

/-- Fallback branch of extract_test_date: when the overwriting fold keeps
no match, the current-date string is returned unchanged. -/
theorem extract_test_date_fallback (text user_bday now_s : String)
    (hfold : (findall_dates text).foldl
        (fun acc x => if x ≠ user_bday then some x else acc) none = none) :
    extract_test_date text user_bday now_s = some now_s := by
  unfold extract_test_date
  rw [hfold]

/-- Selected branch of extract_test_date: when the overwriting fold keeps a
match, that match is reformatted. -/
theorem extract_test_date_selected (text user_bday now_s d : String)
    (hfold : (findall_dates text).foldl
        (fun acc x => if x ≠ user_bday then some x else acc) none = some d) :
    extract_test_date text user_bday now_s = formatSelected d := by
  unfold extract_test_date
  rw [hfold]

/-- Reformatting of the selected match is its strptime result mapped
through the ISO formatter. -/
theorem formatSelected_eq_map (d : String) :
    formatSelected d =
      (strptimeDDMMYYYY d).map (fun t => formatISO t.1 t.2.1 t.2.2) := by
  unfold formatSelected
  cases hp : strptimeDDMMYYYY d with
  | none => rfl
  | some t => obtain ⟨dd, mm, yy⟩ := t; rfl

/-- Scans that never see a numeric-leading token keep value unset. -/
theorem scanParts_no_match (ps : List String) (r : String)
    (h : ∀ p ∈ ps, matchNumeral p = none) :
    scanParts ps none r = (none, r) := by
  induction ps generalizing r with
  | nil => rfl
  | cons p ps ih =>
    have hp := h p (by simp)
    simp only [scanParts, valueFalsy, if_true, hp]
    exact ih r (fun q hq => h q (by simp [hq]))

/-- Numerals matched by the leading-numeric pattern parse to nonnegative
rationals. -/
theorem parseNumeral_nonneg (s : String) : 0 ≤ parseNumeral s := by
  unfold parseNumeral
  split
  · rw [Rat.mkRat_eq_div]; positivity
  · rw [Rat.mkRat_eq_div]; positivity
  · norm_num

/-- Values held by the scan state stay nonnegative through the scan. -/
theorem scanParts_nonneg (ps : List String) :
    ∀ (v : Option ℚ) (r : String) (q : ℚ),
      (∀ u, v = some u → 0 ≤ u) → (scanParts ps v r).1 = some q → 0 ≤ q := by
  induction ps with
  | nil =>
    intro v r q hv h
    exact hv q h
  | cons p ps ih =>
    intro v r q hv h
    simp only [scanParts] at h
    by_cases hf : valueFalsy v = true
    · rw [if_pos hf] at h
      cases hm : matchNumeral p with
      | none => rw [hm] at h; exact ih v _ q hv h
      | some pr =>
        obtain ⟨numStr, rest⟩ := pr
        rw [hm] at h
        refine ih _ _ q (fun u hu => ?_) h
        rw [Option.some.injEq] at hu
        rw [← hu]
        exact parseNumeral_nonneg numStr
    · rw [if_neg hf] at h
      exact ih v _ q hv h

/-! Claim theorems. -/

/-- C6: extract_unit_from_range checks the fixed catalogue by containment
and returns the first catalogue entry in catalogue order (so the string
containing both mg/dL and a later percent sign yields the percent sign),
falls back to the first maximal run of letter/slash/mu characters, and
otherwise returns the empty string; every result is a catalogue entry or a
run of such characters, and the function is total by construction. -/
theorem C6_extract_unit_catalogue_then_fallback :
    extract_unit_from_range "70-110 mg/dL" = "mg/dL" ∧
    extract_unit_from_range "negative" = "negative" ∧
    extract_unit_from_range "" = "" ∧
    extract_unit_from_range "mg/dL 5%" = "%" ∧
    ∀ s, extract_unit_from_range s ∈ unitsCatalogue ∨
      (extract_unit_from_range s).toList.all isUnitChar = true := by
  refine ⟨by decide, by decide, by decide, by decide, ?_⟩
  intro s
  unfold extract_unit_from_range
  split
  · right; decide
  · split
    · left
      exact List.mem_of_find?_eq_some (by assumption)
    · split
      · right
        rename_i run hrun
        exact firstRun_all isUnitChar s.toList run hrun
      · right; decide

/-- C9: the purely-digit token filter drops the standalone reading 95, so
the Glucose row parses with value 70 taken from the leading digits of the
reference range and reference_range set to the remainder, for every date. -/
theorem C9_digit_token_value_lost (date : String) :
    parse_test_row [some "Glucose", some "95", some "70-110"] date =
      some { test_name := "Glucose", value := 70, unit := "",
             reference_range := "-110", test_date := date } := rfl

/-- C8: when the underlying query fails, get_patient_tests returns the
empty table, and the result is identical to that of a client returning a
genuinely empty result, so the two cases cannot be distinguished through
this interface. -/
theorem C8_query_failure_degrades_to_empty
    (client : String → Except String (List (List String)))
    (start_date end_date : String) (test_names : Option (List String)) (err : String)
    (h : client (buildQuery start_date end_date test_names) = .error err) :
    get_patient_tests client start_date end_date test_names = emptyTable ∧
    get_patient_tests client start_date end_date test_names =
      get_patient_tests (fun _ => Except.ok emptyTable) start_date end_date test_names := by
  unfold get_patient_tests
  rw [h]
  exact ⟨rfl, rfl⟩

/-- C8 witness: a concrete always-failing client degrades to the empty
table and is indistinguishable from an empty-result client. -/
theorem C8_query_failure_degrades_to_empty_witness :
    get_patient_tests (fun _ => Except.error "boom") "2024-01-01" "2024-12-31" none = emptyTable ∧
    get_patient_tests (fun _ => Except.error "boom") "2024-01-01" "2024-12-31" none =
      get_patient_tests (fun _ => Except.ok emptyTable) "2024-01-01" "2024-12-31" none :=
  C8_query_failure_degrades_to_empty (fun _ => Except.error "boom")
    "2024-01-01" "2024-12-31" none "boom" rfl

/-- C7: a row rejected by parse_test_row contributes nothing to the data-row
loop and never aborts it: the processed results with the bad row present
equal those with it removed, whatever the surrounding rows are. -/
theorem C7_bad_row_never_aborts (rows1 rows2 : List (List (Option String)))
    (bad : List (Option String)) (date : String)
    (h : parse_test_row bad date = none) :
    processRows (rows1 ++ bad :: rows2) date = processRows (rows1 ++ rows2) date := by
  unfold processRows
  by_cases hl : 2 ≤ bad.length <;>
    simp [List.filter_append, List.filter_cons, List.filterMap_append, List.filterMap_cons,
      hl, h]

/-- C7 witness: a concrete row with no numeric token is rejected and its
presence leaves the processed results of the neighbouring row unchanged. -/
theorem C7_bad_row_never_aborts_witness :
    processRows ([[some "Name", some "7 mg"]] ++ [some "Name", some "abc"] :: []) "d" =
      processRows ([[some "Name", some "7 mg"]] ++ []) "d" :=
  C7_bad_row_never_aborts [[some "Name", some "7 mg"]] [] [some "Name", some "abc"] "d"
    (by decide)

/-- C1 counterexample: in the row with tokens 0.0 then 5.5, the first
numeric-leading token sets value to 0.0 and is then overwritten by the
later numeric-leading token, which is also not appended to
reference_range; the parsed value is 5.5, not the 0.0 the claim demands. -/
theorem C1_counterexample :
    parse_test_row [some "Test", some "0.0", some "5.5"] "2024-01-01" =
      some { test_name := "Test", value := 11/2, unit := "",
             reference_range := "", test_date := "2024-01-01" } ∧
    (parse_test_row [some "Test", some "0.0", some "5.5"] "2024-01-01").map
        BloodworkResult.value ≠ some 0 := by
  have hv : (11 : ℚ) / 2 = mkRat 55 10 := by norm_num [Rat.mkRat_eq_div]
  rw [hv]
  exact ⟨by decide, by decide⟩

/-- C1 (amended): once value holds a nonzero number the scan never
overwrites it, and every token encountered after that point, numeric
looking or not, is appended to reference_range space-joined in encounter
order; a token parsing to 0.0 sets value only provisionally because the
loop guard tests Python truthiness rather than presence. -/
theorem C1_amended (ps : List String) (v : ℚ) (r : String) (hv : v ≠ 0) :
    scanParts ps (some v) r =
      (some v, ps.foldl (fun acc p => if acc = "" then p else acc ++ " " ++ p) r) := by
  induction ps generalizing r with
  | nil => rfl
  | cons p ps ih =>
    have hf : valueFalsy (some v) = false := by
      unfold valueFalsy
      exact beq_eq_false_iff_ne.mpr hv
    simp only [scanParts, hf, Bool.false_eq_true, if_false, List.foldl_cons]
    exact ih _

/-- C1 amended witness: with the nonzero value 5 already set, the scan
leaves it untouched and appends both later tokens. -/
theorem C1_amended_witness :
    scanParts ["4.0-10.0", "mg"] (some 5) "x" =
      (some 5,
        ["4.0-10.0", "mg"].foldl (fun acc p => if acc = "" then p else acc ++ " " ++ p) "x") :=
  C1_amended ["4.0-10.0", "mg"] 5 "x" (by norm_num)

/-- C2 counterexample: a one-row table whose row contains neither marker
keyword parses to an empty record even though its row 0 is itself
parseable, so the fallback does not process every row as data. -/
theorem C2_counterexample :
    parse_blood_work_table [[[some "Glucose", some "70-110 mg/dL"]]] "2024-01-01" "pat" =
      { patient_name := "pat", test_date := "2024-01-01", results := [] } ∧
    parse_test_row [some "Glucose", some "70-110 mg/dL"] "2024-01-01" ≠ none := by
  exact ⟨by decide, by decide⟩

/-- C2 (amended): a table with no marker row treats row 0 as the header, so
exactly the rows from index 1 on are processed as data rows and row 0 is
skipped, rather than the table being rejected. -/
theorem C2_amended (row0 : List (Option String)) (rest : List (List (Option String)))
    (date : String) (h : find_header_row (row0 :: rest) = none) :
    processTable (row0 :: rest) date = processRows rest date := by
  unfold processTable
  rw [h]
  rfl

/-- C2 amended witness: the keyword-free one-row table is processed as the
rows after row 0, which are none. -/
theorem C2_amended_witness :
    processTable [[some "Glucose", some "70-110 mg/dL"]] "2024-01-01" =
      processRows [] "2024-01-01" :=
  C2_amended [some "Glucose", some "70-110 mg/dL"] [] "2024-01-01" (by decide)

/-- C3 counterexample: on text with no date match the fallback branch
returns the current date verbatim in its DD/MM/YYYY rendering, which is
not a YYYY-MM-DD string. -/
theorem C3_counterexample :
    extract_test_date "no date here" "01/01/1990" "12/10/2026" = some "12/10/2026" ∧
    isYYYYMMDD "12/10/2026" = false := by
  exact ⟨by decide, by decide⟩

/-- C3 (amended): every string returned by extract_test_date is either the
current-date string exactly as the fallback branch renders it (DD/MM/YYYY)
or a YYYY-MM-DD reformatting of the selected match; only the non-fallback
branch is guaranteed to be YYYY-MM-DD formatted. -/
theorem C3_amended (text user_bday now_s s : String)
    (h : extract_test_date text user_bday now_s = some s) :
    s = now_s ∨ isYYYYMMDD s = true := by
  cases hm : (findall_dates text).foldl
      (fun acc d => if d ≠ user_bday then some d else acc) none with
  | none =>
    rw [extract_test_date_fallback text user_bday now_s hm, Option.some.injEq] at h
    exact Or.inl h.symm
  | some d =>
    rw [extract_test_date_selected text user_bday now_s d hm, formatSelected_eq_map] at h
    cases hp : strptimeDDMMYYYY d with
    | none => rw [hp] at h; simp at h
    | some t =>
      obtain ⟨dd, mm, yy⟩ := t
      rw [hp, Option.map_some', Option.some.injEq] at h
      refine Or.inr ?_
      rw [← h]
      exact isYYYYMMDD_formatISO dd mm yy

/-- C3 amended witness: a text whose only match differs from the birthday
resolves to an ISO-formatted string. -/
theorem C3_amended_witness :
    "2024-03-15" = "x" ∨ isYYYYMMDD "2024-03-15" = true :=
  C3_amended "tested 15/03/2024" "01/01/1990" "x" "2024-03-15" (by decide)

/-- C4: extract_test_date returns the last regex match whose DD/MM/YYYY
text differs from the birthday, reformatted through strptime to
YYYY-MM-DD, and falls back to the current date when no such match exists;
in particular the text holding 01/01/1990 then 15/03/2024 with birthday
01/01/1990 resolves to 2024-03-15. -/
theorem C4_last_nonbirthday_match_wins :
    (∀ text user_bday now_s,
      extract_test_date text user_bday now_s =
        match ((findall_dates text).filter (fun d => d ≠ user_bday)).getLast? with
        | none => some now_s
        | some d => (strptimeDDMMYYYY d).map (fun t => formatISO t.1 t.2.1 t.2.2)) ∧
    extract_test_date "born 01/01/1990 tested 15/03/2024" "01/01/1990" "now" =
      some "2024-03-15" := by
  constructor
  · intro text user_bday now_s
    cases hq : ((findall_dates text).filter (fun d => d ≠ user_bday)).getLast? with
    | none =>
      have hf : (findall_dates text).foldl
          (fun acc d => if d ≠ user_bday then some d else acc) none = none := by
        rw [foldl_pick_last, hq]; rfl
      rw [extract_test_date_fallback text user_bday now_s hf]
    | some d =>
      have hf : (findall_dates text).foldl
          (fun acc d => if d ≠ user_bday then some d else acc) none = some d := by
        rw [foldl_pick_last, hq]; rfl
      rw [extract_test_date_selected text user_bday now_s d hf, formatSelected_eq_map]
  · decide

/-- C5: parse_test_row rejects every row with fewer than two non-empty
cells after trimming, and every row in which no token after the first
matches the leading-numeric pattern; a result is only materialized when a
value was extracted. -/
theorem C5_reject_conditions (row : List (Option String)) (date : String) :
    ((((row.map cleanCell).filter (fun c => pyStrip c ≠ "")).length < 2) →
        parse_test_row row date = none) ∧
    ((∀ p ∈ (filterDigitTokens (flattenParts (row.map cleanCell))).tail,
        matchNumeral p = none) → parse_test_row row date = none) := by
  constructor
  · intro h
    unfold parse_test_row
    split
    · rfl
    · rw [if_pos (by omega)]
  · intro h
    unfold parse_test_row
    split
    · rfl
    · split
      · rfl
      · split
        · rfl
        · split
          · rfl
          · rename_i first restParts heq
            have h2 : ∀ p ∈ restParts, matchNumeral p = none := by
              intro p hp
              exact h p (by rw [heq]; exact hp)
            rw [scanParts_no_match restParts "" h2]

/-- C5 witness: a one-meaningful-cell row and a row with no numeric-leading
token are both rejected. -/
theorem C5_reject_conditions_witness :
    parse_test_row [some "OnlyName", some "  "] "d" = none ∧
    parse_test_row [some "Name", some "abc def"] "d" = none :=
  ⟨(C5_reject_conditions [some "OnlyName", some "  "] "d").1 (by decide),
   (C5_reject_conditions [some "Name", some "abc def"] "d").2 (by decide)⟩

/-- C10: every result materialized by parse_test_row carries a nonnegative
value, because values only ever come from numerals matched by the unsigned
leading-numeric pattern. -/
theorem C10_value_nonneg (row : List (Option String)) (date : String)
    (tr : BloodworkResult) (h : parse_test_row row date = some tr) :
    0 ≤ tr.value := by
  unfold parse_test_row at h
  split at h
  · exact absurd h (by simp)
  · split at h
    · exact absurd h (by simp)
    · split at h
      · exact absurd h (by simp)
      · split at h
        · exact absurd h (by simp)
        · split at h
          · exact absurd h (by simp)
          · rename_i v reference_range heq
            rw [Option.some.injEq] at h
            have hval : tr.value = v := by rw [← h]
            rw [hval]
            exact scanParts_nonneg _ none "" v (fun u hu => by cases hu) (by rw [heq])

/-- C10 witness: the parsed WBC row yields the nonnegative value 5.2. -/
theorem C10_value_nonneg_witness :
    0 ≤ (BloodworkResult.mk "WBC" (mkRat 52 10) "" "4.0-10.0" "2024-03-15").value :=
  C10_value_nonneg [some " 1", some "WBC", some "5.2 4.0-10.0"] "2024-03-15"
    (BloodworkResult.mk "WBC" (mkRat 52 10) "" "4.0-10.0" "2024-03-15") (by decide)

end DataVisualizer
